import Mathlib

/-!
Verification development for the nm_widget utility scripts.

The repository holds three near-identical CSS-filtering scripts
(`clean_css.py`, `create_clean_css.py`, `extract_clean_css.py`) and one
icon generator (`generate_icons.py`).  Below, each Python function is
embedded shallowly: a stylesheet is a list of lines, a line is a list of
characters, and the stateful loops become structurally recursive
functions carrying their loop state explicitly.  The icon generator's
exception handling is embedded by threading an environment of
success/failure flags for each fallible library call.
-/

/-- A line (or text fragment) of the stylesheet, as a list of characters. -/
abbrev Str := List Char

/-- The whitespace characters removed by Python `str.strip()`. -/
def pySpace (c : Char) : Bool :=
  c = ' ' || c = '\t' || c = '\n' || c = '\r' || c = '\x0b' || c = '\x0c'

/-- Python `line.strip()`: drop whitespace from both ends. -/
def pyStrip (s : Str) : Str :=
  ((s.dropWhile pySpace).reverse.dropWhile pySpace).reverse

/-- Python `sub in s`: substring containment. -/
def containsStr (s sub : Str) : Bool := decide (sub <:+: s)

/-- Python `s.startswith(pre)`. -/
def startsWithStr (s pre : Str) : Bool := decide (pre <+: s)

/-- Python `s.count(c)` for a single character. -/
def countChar (c : Char) (s : Str) : Nat := s.count c

/-- The opening brace character. -/
def obr : Char := '\x7b'

/-- The closing brace character. -/
def cbr : Char := '\x7d'

/-- Net brace count of a line: `line.count(open) - line.count(close)`. -/
def braceDelta (l : Str) : Int := (countChar obr l : Int) - (countChar cbr l : Int)

/-- Python `''.join(lines)`. -/
def strJoin (ls : List Str) : Str := ls.flatten

/-- Python `'\n'.join(lines)`. -/
def nlJoin (ls : List Str) : Str := List.intercalate ['\n'] ls

/-- Marker `'.nativemimic-skin-'` (used by `should_remove_selector`
and by `extract_clean_css`). -/
def skinDot : Str := ".nativemimic-skin-".data

/-- Marker `'nativemimic-skin-'` (used by `should_remove_block`). -/
def skinBare : Str := "nativemimic-skin-".data

/-- Marker `'.nativemimic-dark-mode'`. -/
def darkMark : Str := ".nativemimic-dark-mode".data

/-- Marker `'.nativemimic-speech-controls.nativemimic-dark-mode'`. -/
def speechDark : Str := ".nativemimic-speech-controls.nativemimic-dark-mode".data

/-- Marker `'skin-presets'` (extract_clean_css section skip). -/
def mkPresets : Str := "skin-presets".data

/-- Marker `'skin-custom'` (extract_clean_css section skip). -/
def mkCustom : Str := "skin-custom".data

/-- Marker `'skin-grid'` (extract_clean_css section skip). -/
def mkGrid : Str := "skin-grid".data

/-- The string `'/*'`. -/
def hdrOpen : Str := "/*".data

/-- The string `'/* '`. -/
def hdrOpenSp : Str := "/* ".data

/-- The string `'.'`. -/
def dotS : Str := ".".data

/-- The string `'#'`. -/
def hashS : Str := "#".data

/-- `should_remove_selector` from `clean_css.py` (lines 77-94):
remove on `'.nativemimic-skin-'`; remove on `'.nativemimic-dark-mode'`
unless `'.nativemimic-speech-controls.nativemimic-dark-mode'` is present. -/
def should_remove_selector (selector_line : Str) : Bool :=
  if containsStr selector_line skinDot then true
  else if containsStr selector_line darkMark then
    if containsStr selector_line speechDark then false else true
  else false

/-- `should_remove_block` from `create_clean_css.py` (lines 92-112):
remove on `'nativemimic-skin-'`; keep on the speech-controls dark-mode
marker; remove on the general dark-mode marker. -/
def should_remove_block (block_content : Str) : Bool :=
  if containsStr block_content skinBare then true
  else if containsStr block_content speechDark then false
  else if containsStr block_content darkMark then true
  else false

/-- The selector-line test of `clean_css.py` line 26:
`line and (line.startswith('.') or line.startswith('#') or ',' in line)`
(on the stripped line). -/
def selectorish (line : Str) : Bool :=
  !line.isEmpty && (startsWithStr line dotS || startsWithStr line hashS || line.contains ',')

/-- The loop of `clean_css.clean_css` (clean_css.py lines 19-66).  State:
the remaining lines, `skip_block`, `brace_count`, the pending
`current_selector_lines`, and the accumulated `cleaned_lines`. -/
def cleanGo : List Str → Bool → Int → List Str → List Str → List Str
  | [], _, _, _, cleaned => cleaned
  | l :: rest, skip_block, brace_count, sel, cleaned =>
    let line := pyStrip l
    if skip_block then
      let b := brace_count + braceDelta line
      if b ≤ 0 then cleanGo rest false 0 sel cleaned
      else cleanGo rest true b sel cleaned
    else if selectorish line then
      let sel2 := sel ++ [l]
      if line.contains obr then
        if should_remove_selector (strJoin sel2) then cleanGo rest true 1 [] cleaned
        else cleanGo rest false brace_count [] (cleaned ++ sel2)
      else cleanGo rest false brace_count sel2 cleaned
    else cleanGo rest false brace_count [] ((cleaned ++ sel) ++ [l])

/-- `clean_css` from `clean_css.py`: the pending selector buffer is not
flushed when the input ends. -/
def clean_css (lines : List Str) : List Str := cleanGo lines false 0 [] []

/-- The loop of `create_clean_css.create_clean_css`
(create_clean_css.py lines 26-79).  State: remaining lines,
`skip_block`, `block_depth`, `current_block_lines`, `cleaned_lines`. -/
def createGo : List Str → Bool → Int → List Str → List Str → List Str
  | [], skip_block, _, cur, cleaned =>
    if !cur.isEmpty && !skip_block then cleaned ++ cur else cleaned
  | l :: rest, skip_block, block_depth, cur, cleaned =>
    let stripped := pyStrip l
    if l.contains obr then
      let d := block_depth + (countChar obr l : Int)
      let cur2 := cur ++ [l]
      if should_remove_block (nlJoin cur2) then
        createGo rest true d cur2 cleaned
      else if skip_block then
        createGo rest skip_block d [] cleaned
      else
        createGo rest skip_block d [] (cleaned ++ cur2)
    else if l.contains cbr then
      let d := block_depth - (countChar cbr l : Int)
      if skip_block then
        if d ≤ 0 then createGo rest false d [] cleaned
        else createGo rest true d cur cleaned
      else
        createGo rest false d (if d ≤ 0 then [] else cur) (cleaned ++ [l])
    else if skip_block then
      createGo rest skip_block block_depth cur cleaned
    else if block_depth > 0 then
      createGo rest skip_block block_depth cur (cleaned ++ [l])
    else
      let cur2 := cur ++ [l]
      if !startsWithStr stripped hdrOpen && !stripped.isEmpty then
        if should_remove_block (nlJoin cur2) then createGo rest skip_block block_depth [] cleaned
        else createGo rest skip_block block_depth [] (cleaned ++ cur2)
      else
        createGo rest skip_block block_depth [] (cleaned ++ cur2)

/-- `create_clean_css` from `create_clean_css.py`: at the end of input,
remaining `current_block_lines` are flushed unless a skip is pending. -/
def create_clean_css (lines : List Str) : List Str := createGo lines false 0 [] []

/-- The per-line update of `skip_until_next_section` in
`extract_clean_css.py` lines 23-29: a section-header comment (`'/*'`
not followed by a space) resets the flag, after which the three skin
section markers may set it. -/
def extractFlag (skipSec : Bool) (line : Str) : Bool :=
  let s1 := if startsWithStr line hdrOpen && !startsWithStr line hdrOpenSp then false
            else skipSec
  if containsStr line mkPresets || containsStr line mkCustom ||
      containsStr line mkGrid then true
  else s1

/-- The loop of `extract_clean_css.extract_clean_css`
(extract_clean_css.py lines 17-60), with the inner brace-skip `while`
loops expressed as an extra state component: `none` means the outer
loop is scanning, `some c` means the inner loop is consuming lines with
running brace count `c`.  The inner loop checks no markers and no
section headers; it only counts braces on the raw line. -/
def extractGo : List Str → Bool → Option Int → List Str → List Str
  | [], _, _, acc => acc
  | l :: rest, skipSec, some c, acc =>
    let c2 := c + braceDelta l
    if c2 ≤ 0 then extractGo rest skipSec none acc
    else extractGo rest skipSec (some c2) acc
  | l :: rest, skipSec, none, acc =>
    let line := pyStrip l
    let s2 := extractFlag skipSec line
    if containsStr line darkMark && !containsStr line speechDark then
      let c2 := braceDelta l
      if c2 ≤ 0 then extractGo rest s2 none acc
      else extractGo rest s2 (some c2) acc
    else if containsStr line skinDot then
      let c2 := braceDelta l
      if c2 ≤ 0 then extractGo rest s2 none acc
      else extractGo rest s2 (some c2) acc
    else
      extractGo rest s2 none (if s2 then acc else acc ++ [l])

/-- `extract_clean_css` from `extract_clean_css.py`. -/
def extract_clean_css (lines : List Str) : List Str := extractGo lines false none []

/-- The three font sources of `generate_icons.create_icon`, in fallback
order: `ImageFont.truetype("Arial.ttf", ...)`, then
`ImageFont.truetype("/System/Library/Fonts/Arial.ttf", ...)`, then
`ImageFont.load_default()`. -/
inductive FontSrc
  | arialName
  | arialPath
  | builtin
deriving DecidableEq

/-- Environment for `create_icon`: which of the fallible imaging-library
calls succeed.  `bbox` is the bounding box that `draw.textbbox` returns
when measurement succeeds; `saveOk` tells whether `img.save` succeeds
for a given size. -/
structure IconEnv where
  arialNameOk : Bool
  arialPathOk : Bool
  builtinOk : Bool
  measureOk : Bool
  drawOk : Bool
  bbox : Int × Int × Int × Int
  saveOk : Nat → Bool

/-- Observable outcome of one `create_icon` call. `raised` records
whether an exception propagated out of the call. -/
structure IconTrace where
  fontUsed : Option FontSrc
  glyphPos : Int × Int
  usedFallback : Bool
  saveAttempted : Bool
  fileWritten : Bool
  raised : Bool

/-- The nested try/except font chain of `generate_icons.py` lines 22-29:
each failure is caught and the next source is tried; `none` means even
`load_default` raised (that exception is caught by the outer handler). -/
def tryFont (env : IconEnv) : Option FontSrc :=
  if env.arialNameOk then some FontSrc.arialName
  else if env.arialPathOk then some FontSrc.arialPath
  else if env.builtinOk then some FontSrc.builtin
  else none

/-- `create_icon` from `generate_icons.py` lines 7-44.  The outer
try/except covers font acquisition, `textbbox` measurement and the
font-based `draw.text`; on any failure there, the glyph is drawn at
`(size//4, size//4)`.  `img.save` runs after the try/except, and its
failure is the only way an exception leaves the function. -/
def create_icon (env : IconEnv) (size : Nat) : IconTrace :=
  let font := tryFont env
  let attempt : Option (Int × Int) :=
    match font with
    | none => none
    | some _ =>
      if env.measureOk then
        match env.bbox with
        | (b0, b1, b2, b3) =>
          let w := b2 - b0
          let h := b3 - b1
          let x := Int.fdiv ((size : Int) - w) 2
          let y := Int.fdiv ((size : Int) - h) 2 - 2
          if env.drawOk then some (x, y) else none
      else none
  match attempt with
  | some p =>
    { fontUsed := font, glyphPos := p, usedFallback := false,
      saveAttempted := true, fileWritten := env.saveOk size,
      raised := !env.saveOk size }
  | none =>
    { fontUsed := font, glyphPos := ((size : Int) / 4, (size : Int) / 4),
      usedFallback := true,
      saveAttempted := true, fileWritten := env.saveOk size,
      raised := !env.saveOk size }

/-- The `__main__` loop of `generate_icons.py`: `create_icon` is called
for each size in order with no exception handler, so a raised exception
aborts the remaining iterations.  Returns the sizes whose icon file was
written. -/
def runSizes (env : IconEnv) : List Nat → List Nat
  | [] => []
  | s :: rest => if (create_icon env s).raised then [] else s :: runSizes env rest

/-- The fixed size list `[16, 32, 48, 128]`. -/
def iconSizes : List Nat := [16, 32, 48, 128]

/-- Run the icon generator for all sizes. -/
def generateIcons (env : IconEnv) : List Nat := runSizes env iconSizes

/-- The block `'.nativemimic-dark-mode { color: black; }'`. -/
def exB : Str := ".nativemimic-dark-mode ".data ++ [obr] ++ " color: black; ".data ++ [cbr]

/-- The block `'.nativemimic-speech-controls.nativemimic-dark-mode { color: white; }'`. -/
def exW : Str :=
  ".nativemimic-speech-controls.nativemimic-dark-mode ".data ++ [obr] ++
    " color: white; ".data ++ [cbr]

/-- The line `'.foo {'`. -/
def lnFoo : Str := ".foo ".data ++ [obr]

/-- The line `'  color: red;'`. -/
def lnColor : Str := "  color: red;".data

/-- The line `'}'`. -/
def lnClose : Str := [cbr]

/-- The line `'/* end */'`. -/
def lnEndCmt : Str := "/* end */".data

/-- The line `'after'`. -/
def lnAfter : Str := "after".data

/-- The line `'.nativemimic-skin-one,'` (first line of a two-line selector). -/
def x2a : Str := ".nativemimic-skin-one,".data

/-- The line `'.two {'` (second line of a two-line selector). -/
def x2b : Str := ".two ".data ++ [obr]

/-- A rule block whose two-line selector holds the skin marker on the
first line and the opening brace on the second. -/
def c2cex : List Str := [x2a, x2b, lnColor, lnClose]

/-- `'.nativemimic-skin-a {'`. -/
def n1 : Str := ".nativemimic-skin-a ".data ++ [obr]

/-- `'  @media x {'`. -/
def n2 : Str := "  @media x ".data ++ [obr]

/-- `'    y: z;'`. -/
def n3 : Str := "    y: z;".data

/-- `'  }'`. -/
def n4 : Str := "  ".data ++ [cbr]

/-- `'  w: v;'`. -/
def n5 : Str := "  w: v;".data

/-- A removed rule block containing an inner nested brace pair, followed
by one line outside the block. -/
def nestedInput : List Str := [n1, n2, n3, n4, n5, lnClose, lnAfter]

/-- The line `'.pending-selector'`: selector-like, never reaches `'{'`,
contains no removal marker. -/
def x5 : Str := ".pending-selector".data

/-- `'.nativemimic-skin-grid {'`: sets the section-skip flag (contains
`'skin-grid'`) and also triggers the per-line block skip (contains
`'.nativemimic-skin-'`). -/
def x9a : Str := ".nativemimic-skin-grid ".data ++ [obr]

/-- `'/*SECTION'`: a section-header comment line. -/
def x9hdr : Str := "/*SECTION".data

/-- The line `'body'`. -/
def x9body : Str := "body".data

/-- A skin block whose body contains a section-header comment line: the
brace skip consumes the header, so the section skip survives it. -/
def c9cex : List Str := [x9a, x9hdr, lnClose, x9body]

/-- `'old skin-presets stuff'`: sets the section skip without matching
either per-line block-skip pattern. -/
def w9m : Str := "old skin-presets stuff".data

/-- `'/*NEXT'`: a section-header comment line. -/
def w9hdr : Str := "/*NEXT".data

/-- The line `'p'`. -/
def w9p : Str := "p".data

/-- `'/*SECTION2'`: a section-header comment line. -/
def w6l : Str := "/*SECTION2".data

/-- The line `'.x'`. -/
def w6r : Str := ".x".data

/-- The line `'.a {'`. -/
def p10a : Str := ".a ".data ++ [obr]

/-- The line `'  x: y;'`. -/
def p10b : Str := "  x: y;".data

/-- Icon environment where every call succeeds except saving the
16-pixel icon. -/
def env8bad : IconEnv :=
  { arialNameOk := true, arialPathOk := true, builtinOk := true,
    measureOk := true, drawOk := true, bbox := (0, 0, 8, 10),
    saveOk := fun s => !(s == 16) }

/-- Icon environment where glyph measurement fails and everything else
succeeds. -/
def env7w : IconEnv :=
  { arialNameOk := false, arialPathOk := false, builtinOk := true,
    measureOk := false, drawOk := true, bbox := (0, 0, 8, 10),
    saveOk := fun _ => true }

/-- Net brace count of a stripped line (as used in the skip loop of
`clean_css.py`, lines 53-55). -/
def sDelta (l : Str) : Int := braceDelta (pyStrip l)

/-- Total net brace count of a list of lines, on stripped lines. -/
def sDeltaSum (ls : List Str) : Int := (ls.map sDelta).sum

/-- Total net brace count of a list of raw lines (as counted by the
inner skip loops of `extract_clean_css.py`). -/
def rDeltaSum (ls : List Str) : Int := (ls.map braceDelta).sum

/-- A line that `clean_css` treats as part of a still-open selector:
selector-like (per `selectorish`) and without an opening brace. -/
def selLike (l : Str) : Bool := selectorish (pyStrip l) && !(pyStrip l).contains obr

theorem containsStr_iff {s sub : Str} : containsStr s sub = true ↔ sub <:+: s := by
  simp [containsStr]

theorem startsWithStr_iff {s pre : Str} : startsWithStr s pre = true ↔ pre <+: s := by
  simp [startsWithStr]

theorem containsStr_mono {sub a b : Str} (h : a <:+: b) (hc : containsStr a sub = true) :
    containsStr b sub = true :=
  containsStr_iff.mpr ((containsStr_iff.mp hc).trans h)

theorem containsStr_anti {sub a b : Str} (h : a <:+: b) (hc : containsStr b sub = false) :
    containsStr a sub = false := by
  cases hca : containsStr a sub with
  | false => rfl
  | true => rw [containsStr_mono h hca] at hc; exact hc

theorem pyStrip_part (s : Str) : pyStrip s <:+: s := by
  have h1 : s.dropWhile pySpace <:+ s := List.dropWhile_suffix _
  have h2 : (s.dropWhile pySpace).reverse.dropWhile pySpace <:+ (s.dropWhile pySpace).reverse :=
    List.dropWhile_suffix _
  have h3 : pyStrip s <+: s.dropWhile pySpace :=
    List.reverse_suffix.mp (by simpa [pyStrip] using h2)
  exact h3.isInfix.trans h1.isInfix

theorem strJoin_part_of_mem {l : Str} {ls : List Str} (h : l ∈ ls) : l <:+: strJoin ls :=
  List.infix_of_mem_flatten h

/-- Claim C1: both removal classifiers follow the ordered pattern set
(skin-system marker wins, then the general dark-mode marker unless the
speech-controls dark-mode exception is present, otherwise keep), and on
the two example blocks the general dark-mode block is removed while the
speech-controls dark-mode block is retained verbatim in the filters'
output. -/
theorem claim_c1_removal_classification :
    (∀ s : Str, should_remove_selector s =
      (containsStr s skinDot || (containsStr s darkMark && !containsStr s speechDark))) ∧
    (∀ s : Str, should_remove_block s =
      (containsStr s skinBare || (containsStr s darkMark && !containsStr s speechDark))) ∧
    should_remove_selector exB = true ∧ should_remove_block exB = true ∧
    should_remove_selector exW = false ∧ should_remove_block exW = false ∧
    clean_css [exB] = [] ∧ clean_css [exW] = [exW] ∧
    create_clean_css [exB] = [] ∧ create_clean_css [exW] = [exW] := by
  refine ⟨?_, ?_, by decide, by decide, by decide, by decide,
    by decide, by decide, by decide, by decide⟩
  · intro s
    unfold should_remove_selector
    cases h1 : containsStr s skinDot <;> cases h2 : containsStr s darkMark <;>
      cases h3 : containsStr s speechDark <;> simp
  · intro s
    unfold should_remove_block
    cases h1 : containsStr s skinBare <;> cases h2 : containsStr s darkMark <;>
      cases h3 : containsStr s speechDark <;> simp

theorem cleanGo_skip_pos {l : Str} (rest sel cleaned : List Str) {c : Int}
    (h : 0 < c + braceDelta (pyStrip l)) :
    cleanGo (l :: rest) true c sel cleaned =
      cleanGo rest true (c + braceDelta (pyStrip l)) sel cleaned := by
  have h2 : ¬ (c + braceDelta (pyStrip l) ≤ 0) := by omega
  simp [cleanGo, h2]

theorem cleanGo_skip_end {l : Str} (rest sel cleaned : List Str) {c : Int}
    (h : c + braceDelta (pyStrip l) ≤ 0) :
    cleanGo (l :: rest) true c sel cleaned = cleanGo rest false 0 sel cleaned := by
  simp [cleanGo, h]

theorem cleanGo_acc_step {l : Str} (rest sel cleaned : List Str) (c : Int)
    (h1 : selectorish (pyStrip l) = true) (h2 : (pyStrip l).contains obr = false) :
    cleanGo (l :: rest) false c sel cleaned = cleanGo rest false c (sel ++ [l]) cleaned := by
  have h2m : obr ∉ pyStrip l := by simpa using h2
  simp [cleanGo, h1, h2m]

theorem cleanGo_keep_sel {l : Str} (rest sel cleaned : List Str) (c : Int)
    (h1 : selectorish (pyStrip l) = true) (h2 : (pyStrip l).contains obr = true)
    (h3 : should_remove_selector (strJoin (sel ++ [l])) = false) :
    cleanGo (l :: rest) false c sel cleaned =
      cleanGo rest false c [] (cleaned ++ (sel ++ [l])) := by
  have h2m : obr ∈ pyStrip l := by simpa using h2
  simp [cleanGo, h1, h2m, h3]

theorem cleanGo_remove_sel {l : Str} (rest sel cleaned : List Str) (c : Int)
    (h1 : selectorish (pyStrip l) = true) (h2 : (pyStrip l).contains obr = true)
    (h3 : should_remove_selector (strJoin (sel ++ [l])) = true) :
    cleanGo (l :: rest) false c sel cleaned = cleanGo rest true 1 [] cleaned := by
  have h2m : obr ∈ pyStrip l := by simpa using h2
  simp [cleanGo, h1, h2m, h3]

theorem cleanGo_flush {l : Str} (rest sel cleaned : List Str) (c : Int)
    (h1 : selectorish (pyStrip l) = false) :
    cleanGo (l :: rest) false c sel cleaned =
      cleanGo rest false c [] ((cleaned ++ sel) ++ [l]) := by
  simp [cleanGo, h1]

theorem sDeltaSum_cons (l : Str) (ls : List Str) :
    sDeltaSum (l :: ls) = sDelta l + sDeltaSum ls := by
  simp [sDeltaSum]

theorem rDeltaSum_cons (l : Str) (ls : List Str) :
    rDeltaSum (l :: ls) = braceDelta l + rDeltaSum ls := by
  simp [rDeltaSum]

theorem extractGo_skip_spec : ∀ pre : List Str, pre ≠ [] →
    ∀ (suf : List Str) (s : Bool) (acc : List Str) (c : Int),
    (∀ k, 0 < k → k < pre.length → 0 < c + rDeltaSum (pre.take k)) →
    c + rDeltaSum pre ≤ 0 →
    extractGo (pre ++ suf) s (some c) acc = extractGo suf s none acc := by
  intro pre
  induction pre with
  | nil => intro h; exact absurd rfl h
  | cons l pre2 ih =>
    intro _ suf s acc c hpos hend
    rcases eq_or_ne pre2 [] with h2 | h2
    · subst h2
      have he : c + braceDelta l ≤ 0 := by
        rw [rDeltaSum_cons] at hend
        simp only [rDeltaSum, List.map_nil, List.sum_nil] at hend
        omega
      simp only [List.cons_append, List.nil_append, extractGo]
      rw [if_pos he]
      rfl
    · have h1 : 0 < c + braceDelta l := by
        have hlen : 0 < pre2.length := List.length_pos.mpr h2
        have hp := hpos 1 (by omega) (by simp only [List.length_cons]; omega)
        rw [List.take_succ_cons, List.take_zero] at hp
        simp only [rDeltaSum, List.map_cons, List.map_nil, List.sum_cons, List.sum_nil] at hp
        omega
      simp only [List.cons_append, extractGo]
      rw [if_neg (by omega)]
      refine ih h2 suf s acc (c + braceDelta l) ?_ ?_
      · intro k hk1 hk2
        have hp := hpos (k + 1) (by omega) (by simp only [List.length_cons]; omega)
        rw [List.take_succ_cons, rDeltaSum_cons] at hp
        omega
      · rw [rDeltaSum_cons] at hend
        omega

theorem cleanGo_skip_spec : ∀ pre : List Str, pre ≠ [] →
    ∀ (suf sel cleaned : List Str) (c : Int),
    (∀ k, 0 < k → k < pre.length → 0 < c + sDeltaSum (pre.take k)) →
    c + sDeltaSum pre ≤ 0 →
    cleanGo (pre ++ suf) true c sel cleaned = cleanGo suf false 0 sel cleaned := by
  intro pre
  induction pre with
  | nil => intro h; exact absurd rfl h
  | cons l pre2 ih =>
    intro _ suf sel cleaned c hpos hend
    rcases eq_or_ne pre2 [] with h2 | h2
    · subst h2
      have he : c + braceDelta (pyStrip l) ≤ 0 := by
        rw [sDeltaSum_cons] at hend
        simp only [sDeltaSum, List.map_nil, List.sum_nil, sDelta] at hend
        omega
      simp only [List.cons_append, List.nil_append]
      exact cleanGo_skip_end suf sel cleaned he
    · have h1 : 0 < c + braceDelta (pyStrip l) := by
        have hlen : 0 < pre2.length := List.length_pos.mpr h2
        have hp := hpos 1 (by omega) (by simp only [List.length_cons]; omega)
        rw [List.take_succ_cons, List.take_zero] at hp
        simp only [sDeltaSum, List.map_cons, List.map_nil, List.sum_cons, List.sum_nil,
          sDelta] at hp
        omega
      simp only [List.cons_append]
      rw [cleanGo_skip_pos (pre2 ++ suf) sel cleaned h1]
      refine ih h2 suf sel cleaned (c + braceDelta (pyStrip l)) ?_ ?_
      · intro k hk1 hk2
        have hp := hpos (k + 1) (by omega) (by simp only [List.length_cons]; omega)
        rw [List.take_succ_cons, sDeltaSum_cons] at hp
        simp only [sDelta] at hp
        omega
      · rw [sDeltaSum_cons] at hend
        simp only [sDelta] at hend
        omega

/-- Claim C3: once a block is being skipped, both skip loops keep a
running brace counter (plus each opening brace, minus each closing
brace on the line) over the consumed lines and terminate exactly when
that counter first becomes zero or negative, so an inner nested brace
pair inside a removed block does not end the skip early; on a concrete
removed block containing a nested pair, both filters discard every line
up to and including the line with the matching outer closing brace. -/
theorem claim_c3_brace_skip :
    (∀ pre : List Str, pre ≠ [] →
      ∀ (suf : List Str) (s : Bool) (acc : List Str) (c : Int),
        (∀ k, 0 < k → k < pre.length → 0 < c + rDeltaSum (pre.take k)) →
        c + rDeltaSum pre ≤ 0 →
        extractGo (pre ++ suf) s (some c) acc = extractGo suf s none acc) ∧
    (∀ pre : List Str, pre ≠ [] →
      ∀ (suf sel cleaned : List Str) (c : Int),
        (∀ k, 0 < k → k < pre.length → 0 < c + sDeltaSum (pre.take k)) →
        c + sDeltaSum pre ≤ 0 →
        cleanGo (pre ++ suf) true c sel cleaned = cleanGo suf false 0 sel cleaned) ∧
    extract_clean_css nestedInput = [lnAfter] ∧
    clean_css nestedInput = [lnAfter] :=
  ⟨extractGo_skip_spec, cleanGo_skip_spec, by decide, by decide⟩

/-- Witness for claim C3: the skip loop applied to a concrete removed
block whose body holds an inner nested brace pair consumes exactly the
block and resumes scanning on the following line. -/
theorem claim_c3_brace_skip_witness :
    extractGo ([n2, n3, n4, lnClose] ++ [lnAfter]) false (some 1) [] =
      extractGo [lnAfter] false none [] :=
  claim_c3_brace_skip.1 [n2, n3, n4, lnClose] (by decide) [lnAfter] false [] 1
    (by
      intro k hk1 hk2
      have hk3 : k = 1 ∨ k = 2 ∨ k = 3 := by
        simp only [List.length_cons, List.length_nil] at hk2
        omega
      rcases hk3 with rfl | rfl | rfl <;> decide)
    (by decide)

theorem selectorish_of_dot {t : Str} (h : startsWithStr t dotS = true) :
    selectorish t = true := by
  have hp : dotS <+: t := startsWithStr_iff.mp h
  have hne : t ≠ [] := by
    rintro rfl
    rw [List.prefix_nil] at hp
    exact absurd hp (by decide)
  simp [selectorish, h, hne]

theorem should_remove_selector_of_skin {s : Str} (h : containsStr s skinDot = true) :
    should_remove_selector s = true := by
  simp [should_remove_selector, h]

/-- Claim C2 counterexample: in `extract_clean_css`, a skin marker on
the first line of a two-line selector removes only that line; the rest
of the block, including its opening brace and body, stays in the
output, so the block is not removed even though the marker occurs in
its multi-line selector. -/
theorem claim_c2_counterexample :
    extract_clean_css c2cex = [x2b, lnColor, lnClose] := by decide

/-- Claim C2 (amended): `clean_css` accumulates the selector lines of a
block until the opening brace and matches the removal patterns on the
accumulated text, so the block is removed whenever the marker occurs
anywhere in the multi-line selector; `extract_clean_css`, however,
matches per line only: a marker line without braces removes just that
line. -/
theorem claim_c2_selector_accumulation :
    (∀ s1 : Str, startsWithStr (pyStrip s1) dotS = true →
      (pyStrip s1).contains obr = false →
      containsStr s1 skinDot = true →
      clean_css [s1, lnFoo, lnColor, lnClose, lnEndCmt] = [lnEndCmt]) ∧
    (∀ (s1 : Str) (rest : List Str),
      containsStr (pyStrip s1) skinDot = true →
      countChar obr s1 = 0 → countChar cbr s1 = 0 →
      containsStr (pyStrip s1) mkPresets = false →
      containsStr (pyStrip s1) mkCustom = false →
      containsStr (pyStrip s1) mkGrid = false →
      extract_clean_css (s1 :: rest) = extract_clean_css rest) := by
  constructor
  · intro s1 hdot hbr hmark
    show cleanGo [s1, lnFoo, lnColor, lnClose, lnEndCmt] false 0 [] [] = [lnEndCmt]
    rw [cleanGo_acc_step [lnFoo, lnColor, lnClose, lnEndCmt] [] [] 0
      (selectorish_of_dot hdot) hbr]
    have hrm : should_remove_selector (strJoin (([] ++ [s1]) ++ [lnFoo])) = true := by
      apply should_remove_selector_of_skin
      have hj : strJoin (([] ++ [s1]) ++ [lnFoo]) = s1 ++ lnFoo := by simp [strJoin]
      rw [hj]
      exact containsStr_mono (List.prefix_append s1 lnFoo).isInfix hmark
    rw [cleanGo_remove_sel [lnColor, lnClose, lnEndCmt] ([] ++ [s1]) [] 0
      (by decide) (by decide) hrm]
    decide
  · intro s1 rest h1 h2 h3 h4 h5 h6
    have hd : braceDelta s1 = 0 := by
      simp [braceDelta, h2, h3]
    have hf : extractFlag false (pyStrip s1) = false := by
      simp [extractFlag, h4, h5, h6]
    show extractGo (s1 :: rest) false none [] = extractGo rest false none []
    simp only [extractGo, hf, hd, h1]
    by_cases hdk : (containsStr (pyStrip s1) darkMark &&
        !containsStr (pyStrip s1) speechDark) = true <;>
      simp [hdk]

/-- Witness for claim C2 (amended): both parts applied at a concrete
first selector line containing the skin marker. -/
theorem claim_c2_selector_accumulation_witness :
    clean_css [x2a, lnFoo, lnColor, lnClose, lnEndCmt] = [lnEndCmt] ∧
    extract_clean_css (x2a :: [x2b, lnColor, lnClose]) =
      extract_clean_css [x2b, lnColor, lnClose] :=
  ⟨claim_c2_selector_accumulation.1 x2a (by decide) (by decide) (by decide),
   claim_c2_selector_accumulation.2 x2a [x2b, lnColor, lnClose] (by decide) (by decide)
     (by decide) (by decide) (by decide) (by decide)⟩

theorem extractGo_acc : ∀ (lines : List Str) (s : Bool) (m : Option Int) (acc : List Str),
    extractGo lines s m acc = acc ++ extractGo lines s m [] := by
  intro lines
  induction lines with
  | nil => intro s m acc; simp [extractGo]
  | cons l rest ih =>
    intro s m acc
    cases m with
    | some c =>
      simp only [extractGo]
      by_cases h : c + braceDelta l ≤ 0
      · rw [if_pos h, if_pos h]; exact ih s none acc
      · rw [if_neg h, if_neg h]; exact ih s (some (c + braceDelta l)) acc
    | none =>
      simp only [extractGo]
      by_cases hd : (containsStr (pyStrip l) darkMark &&
          !containsStr (pyStrip l) speechDark) = true
      · rw [if_pos hd, if_pos hd]
        by_cases hc : braceDelta l ≤ 0
        · rw [if_pos hc, if_pos hc]; exact ih _ none acc
        · rw [if_neg hc, if_neg hc]; exact ih _ (some (braceDelta l)) acc
      · rw [if_neg hd, if_neg hd]
        by_cases hk : containsStr (pyStrip l) skinDot = true
        · rw [if_pos hk, if_pos hk]
          by_cases hc : braceDelta l ≤ 0
          · rw [if_pos hc, if_pos hc]; exact ih _ none acc
          · rw [if_neg hc, if_neg hc]; exact ih _ (some (braceDelta l)) acc
        · rw [if_neg hk, if_neg hk]
          by_cases hs2 : extractFlag s (pyStrip l) = true
          · rw [if_pos hs2, if_pos hs2]; exact ih _ none acc
          · rw [if_neg hs2, if_neg hs2]
            rw [ih _ none (acc ++ [l]), ih _ none ([] ++ [l])]
            simp

theorem extractGo_sub : ∀ (lines : List Str) (s : Bool) (m : Option Int) (acc : List Str),
    ∃ t, extractGo lines s m acc = acc ++ t ∧ List.Sublist t lines := by
  intro lines
  induction lines with
  | nil => intro s m acc; exact ⟨[], by simp [extractGo], List.nil_sublist _⟩
  | cons l rest ih =>
    intro s m acc
    cases m with
    | some c =>
      simp only [extractGo]
      by_cases h : c + braceDelta l ≤ 0
      · rw [if_pos h]
        obtain ⟨t, ht, hs⟩ := ih s none acc
        exact ⟨t, ht, hs.cons l⟩
      · rw [if_neg h]
        obtain ⟨t, ht, hs⟩ := ih s (some (c + braceDelta l)) acc
        exact ⟨t, ht, hs.cons l⟩
    | none =>
      simp only [extractGo]
      by_cases hd : (containsStr (pyStrip l) darkMark &&
          !containsStr (pyStrip l) speechDark) = true
      · rw [if_pos hd]
        by_cases hc : braceDelta l ≤ 0
        · rw [if_pos hc]
          obtain ⟨t, ht, hs⟩ := ih _ none acc
          exact ⟨t, ht, hs.cons l⟩
        · rw [if_neg hc]
          obtain ⟨t, ht, hs⟩ := ih _ (some (braceDelta l)) acc
          exact ⟨t, ht, hs.cons l⟩
      · rw [if_neg hd]
        by_cases hk : containsStr (pyStrip l) skinDot = true
        · rw [if_pos hk]
          by_cases hc : braceDelta l ≤ 0
          · rw [if_pos hc]
            obtain ⟨t, ht, hs⟩ := ih _ none acc
            exact ⟨t, ht, hs.cons l⟩
          · rw [if_neg hc]
            obtain ⟨t, ht, hs⟩ := ih _ (some (braceDelta l)) acc
            exact ⟨t, ht, hs.cons l⟩
        · rw [if_neg hk]
          by_cases hs2 : extractFlag s (pyStrip l) = true
          · rw [if_pos hs2]
            obtain ⟨t, ht, hs⟩ := ih _ none acc
            exact ⟨t, ht, hs.cons l⟩
          · rw [if_neg hs2]
            obtain ⟨t, ht, hs⟩ := ih (extractFlag s (pyStrip l)) none (acc ++ [l])
            refine ⟨l :: t, ?_, hs.cons₂ l⟩
            rw [ht]
            simp

theorem createGo_shape : ∀ (lines : List Str) (skip : Bool) (d : Int) (cur acc : List Str),
    (skip = false → cur = []) →
    ∃ t, createGo lines skip d cur acc = acc ++ t ∧ List.Sublist t lines := by
  intro lines
  induction lines with
  | nil =>
    intro skip d cur acc hsc
    simp only [createGo]
    by_cases h : (!cur.isEmpty && !skip) = true
    · exfalso
      simp only [Bool.and_eq_true, Bool.not_eq_true'] at h
      obtain ⟨h1, h2⟩ := h
      rw [hsc h2] at h1
      simp at h1
    · rw [if_neg h]
      exact ⟨[], by simp, List.nil_sublist _⟩
  | cons l rest ih =>
    intro skip d cur acc hsc
    simp only [createGo]
    by_cases h1 : l.contains obr = true
    · rw [if_pos h1]
      by_cases h2 : should_remove_block (nlJoin (cur ++ [l])) = true
      · rw [if_pos h2]
        obtain ⟨t, ht, hs⟩ := ih true (d + (countChar obr l : Int)) (cur ++ [l]) acc
          (by intro h; cases h)
        exact ⟨t, ht, hs.cons l⟩
      · rw [if_neg h2]
        by_cases h3 : skip = true
        · rw [if_pos h3]
          obtain ⟨t, ht, hs⟩ := ih skip (d + (countChar obr l : Int)) [] acc (fun _ => rfl)
          exact ⟨t, ht, hs.cons l⟩
        · rw [if_neg h3]
          have hc : cur = [] := hsc (by simpa using h3)
          subst hc
          obtain ⟨t, ht, hs⟩ := ih skip (d + (countChar obr l : Int)) [] (acc ++ ([] ++ [l]))
            (fun _ => rfl)
          refine ⟨l :: t, ?_, hs.cons₂ l⟩
          rw [ht]
          simp
    · rw [if_neg h1]
      by_cases h4 : l.contains cbr = true
      · rw [if_pos h4]
        by_cases h5 : skip = true
        · rw [if_pos h5]
          by_cases h6 : d - (countChar cbr l : Int) ≤ 0
          · rw [if_pos h6]
            obtain ⟨t, ht, hs⟩ := ih false (d - (countChar cbr l : Int)) [] acc (fun _ => rfl)
            exact ⟨t, ht, hs.cons l⟩
          · rw [if_neg h6]
            obtain ⟨t, ht, hs⟩ := ih true (d - (countChar cbr l : Int)) cur acc
              (by intro h; cases h)
            exact ⟨t, ht, hs.cons l⟩
        · rw [if_neg h5]
          have hc : cur = [] := hsc (by simpa using h5)
          subst hc
          obtain ⟨t, ht, hs⟩ := ih false (d - (countChar cbr l : Int))
            (if d - (countChar cbr l : Int) ≤ 0 then [] else []) (acc ++ [l])
            (by intro _; split <;> rfl)
          refine ⟨l :: t, ?_, hs.cons₂ l⟩
          rw [ht]
          simp
      · rw [if_neg h4]
        by_cases h5 : skip = true
        · rw [if_pos h5]
          obtain ⟨t, ht, hs⟩ := ih skip d cur acc hsc
          exact ⟨t, ht, hs.cons l⟩
        · rw [if_neg h5]
          have hc : cur = [] := hsc (by simpa using h5)
          subst hc
          by_cases h6 : d > 0
          · rw [if_pos h6]
            obtain ⟨t, ht, hs⟩ := ih skip d [] (acc ++ [l]) hsc
            refine ⟨l :: t, ?_, hs.cons₂ l⟩
            rw [ht]
            simp
          · rw [if_neg h6]
            by_cases h7 : (!startsWithStr (pyStrip l) hdrOpen && !(pyStrip l).isEmpty) = true
            · rw [if_pos h7]
              by_cases h8 : should_remove_block (nlJoin ([] ++ [l])) = true
              · rw [if_pos h8]
                obtain ⟨t, ht, hs⟩ := ih skip d [] acc (fun _ => rfl)
                exact ⟨t, ht, hs.cons l⟩
              · rw [if_neg h8]
                obtain ⟨t, ht, hs⟩ := ih skip d [] (acc ++ ([] ++ [l])) (fun _ => rfl)
                refine ⟨l :: t, ?_, hs.cons₂ l⟩
                rw [ht]
                simp
            · rw [if_neg h7]
              obtain ⟨t, ht, hs⟩ := ih skip d [] (acc ++ ([] ++ [l])) (fun _ => rfl)
              refine ⟨l :: t, ?_, hs.cons₂ l⟩
              rw [ht]
              simp

/-- Claim C4: for both cited filters, the output is a subsequence of the
input lines — every kept line is a byte-identical input line, no line is
duplicated or reordered — and the output's line count equals the
original line count minus exactly the number of removed lines. -/
theorem claim_c4_output_subsequence :
    (∀ lines : List Str, List.Sublist (extract_clean_css lines) lines) ∧
    (∀ lines : List Str, List.Sublist (create_clean_css lines) lines) ∧
    (∀ lines : List Str,
      (extract_clean_css lines).length
        = lines.length - (lines.length - (extract_clean_css lines).length)) ∧
    (∀ lines : List Str,
      (create_clean_css lines).length
        = lines.length - (lines.length - (create_clean_css lines).length)) := by
  have he : ∀ lines : List Str, List.Sublist (extract_clean_css lines) lines := by
    intro lines
    obtain ⟨t, ht, hs⟩ := extractGo_sub lines false none []
    rw [extract_clean_css, ht]
    simpa using hs
  have hc : ∀ lines : List Str, List.Sublist (create_clean_css lines) lines := by
    intro lines
    obtain ⟨t, ht, hs⟩ := createGo_shape lines false 0 [] [] (fun _ => rfl)
    rw [create_clean_css, ht]
    simpa using hs
  refine ⟨he, hc, ?_, ?_⟩
  · intro lines
    have := (he lines).length_le
    omega
  · intro lines
    have := (hc lines).length_le
    omega

theorem extractGo_id : ∀ (lines acc : List Str),
    (∀ l ∈ lines, containsStr (pyStrip l) mkPresets = false ∧
      containsStr (pyStrip l) mkCustom = false ∧
      containsStr (pyStrip l) mkGrid = false ∧
      containsStr (pyStrip l) darkMark = false ∧
      containsStr (pyStrip l) skinDot = false) →
    extractGo lines false none acc = acc ++ lines := by
  intro lines
  induction lines with
  | nil => intro acc _; simp [extractGo]
  | cons l rest ih =>
    intro acc h
    obtain ⟨h1, h2, h3, h4, h5⟩ := h l (List.mem_cons_self l rest)
    have hf : extractFlag false (pyStrip l) = false := by
      simp [extractFlag, h1, h2, h3]
    simp only [extractGo, hf, h4, h5, Bool.false_and, Bool.false_eq_true, if_false]
    rw [ih (acc ++ [l]) (fun x hx => h x (List.mem_cons_of_mem l hx))]
    simp

theorem cleanGo_id : ∀ (lines sel cleaned : List Str) (c : Int),
    containsStr (strJoin sel ++ strJoin lines) darkMark = false →
    containsStr (strJoin sel ++ strJoin lines) skinDot = false →
    (lines = [] → sel = []) →
    (∀ h : lines ≠ [], selLike (lines.getLast h) = false) →
    cleanGo lines false c sel cleaned = (cleaned ++ sel) ++ lines := by
  intro lines
  induction lines with
  | nil =>
    intro sel cleaned c _ _ hnil _
    rw [hnil rfl]
    simp [cleanGo]
  | cons l rest ih =>
    intro sel cleaned c hdark hskin _ hlast
    have hjoin : strJoin (l :: rest) = l ++ strJoin rest := by simp [strJoin]
    have hlast2 : ∀ h : rest ≠ [], selLike (rest.getLast h) = false := by
      intro h
      have hg := hlast (List.cons_ne_nil l rest)
      rwa [List.getLast_cons h] at hg
    have hsfx : strJoin rest <:+ strJoin sel ++ strJoin (l :: rest) := by
      rw [hjoin]
      exact (List.suffix_append l (strJoin rest)).trans (List.suffix_append _ _)
    have hd2 : containsStr (strJoin [] ++ strJoin rest) darkMark = false := by
      have := containsStr_anti hsfx.isInfix hdark
      simpa [strJoin] using this
    have hs2 : containsStr (strJoin [] ++ strJoin rest) skinDot = false := by
      have := containsStr_anti hsfx.isInfix hskin
      simpa [strJoin] using this
    by_cases hsel : selectorish (pyStrip l) = true
    · by_cases hbr : (pyStrip l).contains obr = true
      · have hpre : strJoin (sel ++ [l]) <+: strJoin sel ++ strJoin (l :: rest) := by
          rw [hjoin]
          have he : strJoin (sel ++ [l]) = strJoin sel ++ l := by simp [strJoin]
          rw [he, ← List.append_assoc]
          exact List.prefix_append _ _
        have hrm : should_remove_selector (strJoin (sel ++ [l])) = false := by
          have d1 := containsStr_anti hpre.isInfix hdark
          have d2 := containsStr_anti hpre.isInfix hskin
          simp [should_remove_selector, d1, d2]
        rw [cleanGo_keep_sel rest sel cleaned c hsel hbr hrm]
        rw [ih [] (cleaned ++ (sel ++ [l])) c hd2 hs2 (fun _ => rfl) hlast2]
        simp
      · have hbf : (pyStrip l).contains obr = false := by simpa using hbr
        have hrest : rest ≠ [] := by
          rintro rfl
          have hg := hlast (List.cons_ne_nil l [])
          rw [List.getLast_singleton] at hg
          rw [selLike, hsel, hbf] at hg
          simp at hg
        have hj2 : strJoin (sel ++ [l]) ++ strJoin rest = strJoin sel ++ strJoin (l :: rest) := by
          simp [strJoin]
        rw [cleanGo_acc_step rest sel cleaned c hsel hbf]
        rw [ih (sel ++ [l]) cleaned c (by rw [hj2]; exact hdark) (by rw [hj2]; exact hskin)
          (fun hr => absurd hr hrest) hlast2]
        simp
    · have hsf : selectorish (pyStrip l) = false := by simpa using hsel
      rw [cleanGo_flush rest sel cleaned c hsf]
      rw [ih [] ((cleaned ++ sel) ++ [l]) c hd2 hs2 (fun _ => rfl) hlast2]
      simp

/-- Claim C5 counterexample: the one-line stylesheet `'.pending-selector'`
contains none of the removal marker substrings, yet `clean_css` removes
its only line (the pending selector buffer is dropped at end of input),
so the output does not equal the input. -/
theorem claim_c5_counterexample :
    clean_css [x5] = [] ∧ clean_css [x5] ≠ [x5] ∧
    containsStr (strJoin [x5]) darkMark = false ∧
    containsStr (strJoin [x5]) skinDot = false ∧
    containsStr (strJoin [x5]) mkPresets = false ∧
    containsStr (strJoin [x5]) mkCustom = false ∧
    containsStr (strJoin [x5]) mkGrid = false := by decide

/-- Claim C5 (amended): on an input text free of the removal marker
substrings, `extract_clean_css` removes nothing, and `clean_css`
removes nothing provided the input does not end in a still-open
selector-like line (otherwise the unflushed selector buffer is lost,
see the counterexample and claim C10). -/
theorem claim_c5_marker_free_identity :
    (∀ lines : List Str,
      containsStr (strJoin lines) mkPresets = false →
      containsStr (strJoin lines) mkCustom = false →
      containsStr (strJoin lines) mkGrid = false →
      containsStr (strJoin lines) darkMark = false →
      containsStr (strJoin lines) skinDot = false →
      extract_clean_css lines = lines) ∧
    (∀ lines : List Str,
      containsStr (strJoin lines) darkMark = false →
      containsStr (strJoin lines) skinDot = false →
      (∀ h : lines ≠ [], selLike (lines.getLast h) = false) →
      clean_css lines = lines) := by
  constructor
  · intro lines hp hc hg hd hs
    have hper : ∀ l ∈ lines, containsStr (pyStrip l) mkPresets = false ∧
        containsStr (pyStrip l) mkCustom = false ∧
        containsStr (pyStrip l) mkGrid = false ∧
        containsStr (pyStrip l) darkMark = false ∧
        containsStr (pyStrip l) skinDot = false := by
      intro l hl
      have hinf : pyStrip l <:+: strJoin lines :=
        (pyStrip_part l).trans (strJoin_part_of_mem hl)
      exact ⟨containsStr_anti hinf hp, containsStr_anti hinf hc, containsStr_anti hinf hg,
        containsStr_anti hinf hd, containsStr_anti hinf hs⟩
    have := extractGo_id lines [] hper
    simpa [extract_clean_css] using this
  · intro lines hd hs hlast
    have := cleanGo_id lines [] [] 0 (by simpa [strJoin] using hd)
      (by simpa [strJoin] using hs) (fun _ => rfl) hlast
    simpa [clean_css] using this

/-- Witness for claim C5 (amended): both parts applied at concrete
marker-free inputs. -/
theorem claim_c5_marker_free_identity_witness :
    extract_clean_css [x9body] = [x9body] ∧ clean_css [lnColor] = [lnColor] :=
  ⟨claim_c5_marker_free_identity.1 [x9body] (by decide) (by decide) (by decide)
     (by decide) (by decide),
   claim_c5_marker_free_identity.2 [lnColor] (by decide) (by decide)
     (by intro h; rw [List.getLast_singleton]; decide)⟩

/-- Claim C6: in `extract_clean_css`, whenever the current outer-loop
line's trimmed text starts with `'/*'` not followed by a space, the
skip-until-next-section flag is reset to false before any removal
pattern is evaluated on that line: processing from such a header line
onward is independent of any pending section-level skip. -/
theorem claim_c6_header_resets_skip :
    ∀ (skipSec : Bool) (l : Str) (rest acc : List Str),
      startsWithStr (pyStrip l) hdrOpen = true →
      startsWithStr (pyStrip l) hdrOpenSp = false →
      extractGo (l :: rest) skipSec none acc = extractGo (l :: rest) false none acc := by
  intro s l rest acc h1 h2
  have hf : extractFlag s (pyStrip l) = extractFlag false (pyStrip l) := by
    simp [extractFlag, h1, h2]
  simp only [extractGo, hf]

/-- Witness for claim C6: the reset applied at a concrete header line
with a pending skip. -/
theorem claim_c6_header_resets_skip_witness :
    extractGo (w6l :: [w6r]) true none [] = extractGo (w6l :: [w6r]) false none [] :=
  claim_c6_header_resets_skip true w6l [w6r] [] (by decide) (by decide)

theorem extractFlag_keep_true {line : Str}
    (h : (startsWithStr line hdrOpen && !startsWithStr line hdrOpenSp) = false) :
    extractFlag true line = true := by
  simp [extractFlag, h]

theorem extractGo_secskip : ∀ (body tail acc : List Str),
    (∀ b ∈ body,
      (containsStr (pyStrip b) darkMark && !containsStr (pyStrip b) speechDark) = false ∧
      containsStr (pyStrip b) skinDot = false ∧
      (startsWithStr (pyStrip b) hdrOpen && !startsWithStr (pyStrip b) hdrOpenSp) = false) →
    extractGo (body ++ tail) true none acc = extractGo tail true none acc := by
  intro body
  induction body with
  | nil => intro tail acc _; rfl
  | cons b body2 ih =>
    intro tail acc h
    obtain ⟨h1, h2, h3⟩ := h b (List.mem_cons_self b body2)
    have hf : extractFlag true (pyStrip b) = true := extractFlag_keep_true h3
    simp only [List.cons_append, extractGo, h1, h2, hf, Bool.false_eq_true, if_false, if_true]
    exact ih tail acc (fun x hx => h x (List.mem_cons_of_mem b hx))

/-- Claim C9 counterexample: `'.nativemimic-skin-grid {'` sets the
section-skip flag, but it also triggers the per-line block skip, which
consumes the section-header line inside the braces without resetting
the flag; the line after the header is therefore still omitted, so the
skip does not end at the next section-header line as claimed. -/
theorem claim_c9_counterexample : extract_clean_css c9cex = [] := by decide

/-- Claim C9 (amended): a line containing `'skin-presets'`,
`'skin-custom'` or `'skin-grid'` — itself matching neither per-line
block-skip pattern — sets a skip mode that omits that line and every
following line, regardless of brace structure, until the next line
whose trimmed text starts with `'/*'` not followed by a space, provided
no omitted line triggers the per-line block skip (which consumes lines,
section headers included, without re-checking the flag); the header
line itself is kept and scanning resumes after it. -/
theorem claim_c9_section_skip :
    ∀ (ms : Str) (body : List Str) (hdr : Str) (post : List Str),
      (containsStr (pyStrip ms) mkPresets || containsStr (pyStrip ms) mkCustom ||
        containsStr (pyStrip ms) mkGrid) = true →
      (containsStr (pyStrip ms) darkMark && !containsStr (pyStrip ms) speechDark) = false →
      containsStr (pyStrip ms) skinDot = false →
      (∀ b ∈ body,
        (containsStr (pyStrip b) darkMark && !containsStr (pyStrip b) speechDark) = false ∧
        containsStr (pyStrip b) skinDot = false ∧
        (startsWithStr (pyStrip b) hdrOpen && !startsWithStr (pyStrip b) hdrOpenSp) = false) →
      (startsWithStr (pyStrip hdr) hdrOpen && !startsWithStr (pyStrip hdr) hdrOpenSp) = true →
      (containsStr (pyStrip hdr) mkPresets || containsStr (pyStrip hdr) mkCustom ||
        containsStr (pyStrip hdr) mkGrid) = false →
      (containsStr (pyStrip hdr) darkMark && !containsStr (pyStrip hdr) speechDark) = false →
      containsStr (pyStrip hdr) skinDot = false →
      extract_clean_css (ms :: (body ++ hdr :: post)) = hdr :: extract_clean_css post := by
  intro ms body hdr post h1 h2 h3 hb h4 h5 h6 h7
  have hfm : extractFlag false (pyStrip ms) = true := by
    simp [extractFlag, h1]
  show extractGo (ms :: (body ++ hdr :: post)) false none [] =
    hdr :: extractGo post false none []
  simp only [extractGo, h2, h3, hfm, Bool.false_eq_true, if_false, if_true]
  rw [extractGo_secskip body (hdr :: post) [] hb]
  have hfh : extractFlag true (pyStrip hdr) = false := by
    simp [extractFlag, h4, h5]
  simp only [extractGo, h6, h7, hfh, Bool.false_eq_true, if_false]
  rw [extractGo_acc post false none ([] ++ [hdr])]
  simp

/-- Witness for claim C9 (amended): a section skip set by a plain
marker line, running over a stray closing brace, ending at the next
header line. -/
theorem claim_c9_section_skip_witness :
    extract_clean_css (w9m :: ([lnClose] ++ w9hdr :: [w9p])) =
      w9hdr :: extract_clean_css [w9p] :=
  claim_c9_section_skip w9m [lnClose] w9hdr [w9p] (by decide) (by decide) (by decide)
    (by decide) (by decide) (by decide) (by decide) (by decide)

theorem cleanGo_drop_tail : ∀ (trailing sel cleaned : List Str) (c : Int),
    (∀ l ∈ trailing, selLike l = true) →
    cleanGo trailing false c sel cleaned = cleaned := by
  intro trailing
  induction trailing with
  | nil => intro sel cleaned c _; rfl
  | cons l rest ih =>
    intro sel cleaned c h
    have hl := h l (List.mem_cons_self l rest)
    rw [selLike, Bool.and_eq_true] at hl
    obtain ⟨hsel, hbr⟩ := hl
    have hbf : (pyStrip l).contains obr = false := by simpa using hbr
    rw [cleanGo_acc_step rest sel cleaned c hsel hbf]
    exact ih (sel ++ [l]) cleaned c (fun x hx => h x (List.mem_cons_of_mem l hx))

/-- Claim C10: selector-like lines accumulated at the end of the input
that never reach an opening brace are silently dropped by `clean_css`:
appended after a kept block, any run of such trailing lines leaves the
output unchanged, even though no removal pattern matched them (no
pattern hypothesis is needed at all). -/
theorem claim_c10_trailing_selector_dropped :
    ∀ trailing : List Str, (∀ l ∈ trailing, selLike l = true) →
      clean_css ([p10a, p10b, lnClose] ++ trailing) = [p10a, p10b, lnClose] := by
  intro trailing h
  show cleanGo (p10a :: p10b :: lnClose :: trailing) false 0 [] [] = [p10a, p10b, lnClose]
  rw [cleanGo_keep_sel (p10b :: lnClose :: trailing) [] [] 0 (by decide) (by decide)
    (by decide)]
  rw [cleanGo_flush (lnClose :: trailing) [] _ 0 (by decide)]
  rw [cleanGo_flush trailing [] _ 0 (by decide)]
  rw [cleanGo_drop_tail trailing [] _ 0 h]
  decide

/-- Witness for claim C10: two concrete trailing selector-like lines
are dropped. -/
theorem claim_c10_trailing_selector_dropped_witness :
    clean_css ([p10a, p10b, lnClose] ++ [x5, w6r]) = [p10a, p10b, lnClose] :=
  claim_c10_trailing_selector_dropped [x5, w6r] (by decide)

theorem create_icon_raised (env : IconEnv) (s : Nat) :
    (create_icon env s).raised = !env.saveOk s := by
  obtain ⟨a1, a2, a3, m, dr, bb, sv⟩ := env
  obtain ⟨b0, b1, b2, b3⟩ := bb
  cases a1 <;> cases a2 <;> cases a3 <;> cases m <;> cases dr <;>
    simp [create_icon, tryFont]

/-- Claim C7: `create_icon` never propagates an exception from font
loading, glyph measurement or glyph drawing: an exception leaves the
call only when the PNG save fails; the font chain tries the preferred
truetype face, the alternate path, then the built-in default in order;
any overall text-rendering failure (no usable font, failed measurement,
failed draw) falls back to drawing the glyph at `(size//4, size//4)`;
and in every case execution reaches the PNG save, which writes the file
whenever saving succeeds. -/
theorem claim_c7_icon_error_recovery :
    ∀ (env : IconEnv) (size : Nat),
      (create_icon env size).saveAttempted = true ∧
      ((create_icon env size).raised = true → env.saveOk size = false) ∧
      (env.saveOk size = true → (create_icon env size).fileWritten = true) ∧
      (env.arialNameOk = false → env.arialPathOk = true →
        (create_icon env size).fontUsed = some FontSrc.arialPath) ∧
      (env.arialNameOk = false → env.arialPathOk = false → env.builtinOk = true →
        (create_icon env size).fontUsed = some FontSrc.builtin) ∧
      (env.measureOk = false →
        (create_icon env size).glyphPos = ((size : Int) / 4, (size : Int) / 4) ∧
        (create_icon env size).usedFallback = true) ∧
      (env.drawOk = false →
        (create_icon env size).glyphPos = ((size : Int) / 4, (size : Int) / 4)) ∧
      (env.arialNameOk = false → env.arialPathOk = false → env.builtinOk = false →
        (create_icon env size).glyphPos = ((size : Int) / 4, (size : Int) / 4)) := by
  intro env size
  obtain ⟨a1, a2, a3, m, dr, bb, sv⟩ := env
  obtain ⟨b0, b1, b2, b3⟩ := bb
  cases a1 <;> cases a2 <;> cases a3 <;> cases m <;> cases dr <;>
    simp [create_icon, tryFont]

/-- Witness for claim C7: with every font source failing except the
built-in one and measurement failing, the glyph is drawn at the
fallback offset. -/
theorem claim_c7_icon_error_recovery_witness :
    env7w.measureOk = false ∧
    (create_icon env7w 16).glyphPos = ((16 : Int) / 4, (16 : Int) / 4) :=
  ⟨rfl, ((claim_c7_icon_error_recovery env7w 16).2.2.2.2.2.1 rfl).1⟩

/-- Claim C8 counterexample: when saving the 16-pixel icon fails while
every save for the other sizes would succeed, no icon at all is
generated for the remaining sizes 32, 48 and 128 — the exception
propagates out of the per-size loop, contradicting the claim that the
remaining icons are still generated. -/
theorem claim_c8_counterexample :
    generateIcons env8bad = [] ∧ env8bad.saveOk 16 = false ∧
    env8bad.saveOk 32 = true ∧ env8bad.saveOk 48 = true ∧ env8bad.saveOk 128 = true :=
  ⟨rfl, rfl, rfl, rfl, rfl⟩

/-- Claim C8 (amended): a PNG-save failure aborts that icon's
generation and the generation of every later size in the list — the
uncaught exception ends the whole loop — while icons for the sizes
before the failing one are unaffected: the generated sizes are exactly
the longest prefix of `[16, 32, 48, 128]` on which saving succeeds. -/
theorem claim_c8_save_failure_aborts_rest :
    ∀ env : IconEnv, generateIcons env = iconSizes.takeWhile (fun s => env.saveOk s) := by
  intro env
  have h : ∀ l : List Nat, runSizes env l = l.takeWhile (fun s => env.saveOk s) := by
    intro l
    induction l with
    | nil => rfl
    | cons s rest ih =>
      simp only [runSizes, create_icon_raised]
      cases hs : env.saveOk s
      · simp [List.takeWhile_cons, hs]
      · simp [List.takeWhile_cons, hs, ih]
  exact h iconSizes
